import Mathlib

/-!
Verification of the sandboxed code-execution and output-comparison core
(`src/tools/code_executor.py`) against its natural-language specification.

The Python runtime pieces the module relies on are embedded shallowly:

* `PyObj` models the Python values that flow through the tool
  (the values `json.loads` can produce, plus the dictionaries the tool builds).
* `jsonLoads` models `json.loads` (strict JSON grammar with the CPython
  extensions `NaN`/`Infinity`/`-Infinity`; those constants are idealized as
  float values since the tool only ever observes their type, never their
  magnitude).
* `pyStrip`, `pyLower`, `pyContainsSub` model `str.strip()`, `str.lower()`
  (on the ASCII range) and the `in` substring test.
* The dynamic execution `exec(code, safe_globals, safe_locals)` is abstracted
  by an oracle `ExecOracle` giving, per code string, the behaviour of the run
  (captured stdout/stderr text and how the run ended); every theorem
  quantifies over the oracle.
* Floats are idealized as rationals (`ℚ`).
* Python exceptions escaping an expression are modelled with `Except String`,
  carrying the `str(e)` text of the exception.
-/

set_option maxHeartbeats 1000000
set_option maxRecDepth 4000

namespace CodeExec

/-- Python runtime values as produced by `json.loads` and manipulated by the
tool: `None`, `bool`, `int`, `float` (idealized as `ℚ`), `str`, `list`, and
string-keyed `dict` (association list in insertion order, keys unique). -/
inductive PyObj where
  | none
  | bool (b : Bool)
  | int (n : Int)
  | float (q : ℚ)
  | str (s : String)
  | list (xs : List PyObj)
  | dict (fields : List (String × PyObj))

/-- Python `type(v).__name__`, as it appears in `AttributeError` messages. -/
def pyTypeName : PyObj → String
  | .none => "NoneType"
  | .bool _ => "bool"
  | .int _ => "int"
  | .float _ => "float"
  | .str _ => "str"
  | .list _ => "list"
  | .dict _ => "dict"

/-- JSON insignificant whitespace (RFC 8259 / CPython `json`). -/
def jsonWs (c : Char) : Bool :=
  c == ' ' || c == '\t' || c == '\n' || c == '\r'

/-- Value of a hexadecimal digit character, if it is one. -/
def hexDigitVal (c : Char) : Option Nat :=
  if '0' ≤ c ∧ c ≤ '9' then some (c.toNat - '0'.toNat)
  else if 'a' ≤ c ∧ c ≤ 'f' then some (c.toNat - 'a'.toNat + 10)
  else if 'A' ≤ c ∧ c ≤ 'F' then some (c.toNat - 'A'.toNat + 10)
  else Option.none

/-- Parse exactly four hex digits (the payload of a `\uXXXX` escape). -/
def parseHex4 : List Char → Option (Nat × List Char)
  | a :: b :: c :: d :: rest =>
    match hexDigitVal a, hexDigitVal b, hexDigitVal c, hexDigitVal d with
    | some va, some vb, some vc, some vd =>
      some (((va * 16 + vb) * 16 + vc) * 16 + vd, rest)
    | _, _, _, _ => Option.none
  | _ => Option.none

/-- The single-character JSON escape table (CPython's `BACKSLASH` dict). -/
def escapeTable : List (Char × Char) :=
  [('"', '"'), ('\\', '\\'), ('/', '/'),
   ('b', Char.ofNat 0x8), ('f', Char.ofNat 0xC),
   ('n', '\n'), ('r', '\r'), ('t', '\t')]

/-- Decode a single-character JSON escape via the table. -/
def escapeChar (c : Char) : Option Char :=
  (escapeTable.find? (fun p => p.1 == c)).map (fun p => p.2)

/-- Decode one `\uXXXX` escape (the input starts right after the `u`),
with UTF-16 surrogate pairing as in CPython's scanner: a high surrogate
followed by a low-surrogate escape combines into one scalar; a lone
surrogate, which CPython keeps as an unpaired code unit, is idealized here
through `Char.ofNat`'s total handling of invalid scalar values. -/
def parseUEscape (cs : List Char) : Option (Char × List Char) :=
  match parseHex4 cs with
  | some (n, rest1) =>
    if 0xD800 ≤ n ∧ n ≤ 0xDBFF then
      match rest1 with
      | '\\' :: 'u' :: rest2 =>
        (match parseHex4 rest2 with
         | some (m, rest3) =>
           if 0xDC00 ≤ m ∧ m ≤ 0xDFFF then
             some (Char.ofNat (0x10000 + (n - 0xD800) * 0x400 + (m - 0xDC00)), rest3)
           else some (Char.ofNat n, rest1)
         | Option.none => Option.none)
      | _ => some (Char.ofNat n, rest1)
    else some (Char.ofNat n, rest1)
  | Option.none => Option.none

/-- Body of a JSON string literal, after the opening quote.  Accumulates
decoded characters in reverse; control characters are rejected (strict mode).
The fuel argument only bounds recursion depth; every recursive call consumes
at least one input character, so `length + 1` fuel never runs out. -/
def parseStrBody : Nat → List Char → List Char → Option (String × List Char)
  | 0, _, _ => Option.none
  | Nat.succ fuel, acc, cs =>
    match cs with
    | '"' :: rest => some (String.mk acc.reverse, rest)
    | '\\' :: 'u' :: rest =>
      (match parseUEscape rest with
       | some (c, rest1) => parseStrBody fuel (c :: acc) rest1
       | Option.none => Option.none)
    | '\\' :: e :: rest =>
      (match escapeChar e with
       | some c => parseStrBody fuel (c :: acc) rest
       | Option.none => Option.none)
    | c :: rest =>
      if c.toNat < 0x20 then Option.none else parseStrBody fuel (c :: acc) rest
    | [] => Option.none

/-- Numeric value of a list of decimal digit characters. -/
def digitsVal (ds : List Char) : Nat :=
  ds.foldl (fun n c => n * 10 + (c.toNat - '0'.toNat)) 0

/-- Parse a JSON number per the RFC 8259 grammar
(`-? (0 | [1-9][0-9]*) frac? exp?`), yielding a Python `int` when neither a
fraction nor an exponent is present and a Python `float` otherwise
(float values idealized as exact rationals). -/
def parseNum (cs : List Char) : Option (PyObj × List Char) :=
  let neg : Bool := match cs with
    | '-' :: _ => true
    | _ => false
  let cs1 := if neg then cs.tail else cs
  match cs1 with
  | c :: _ =>
    if ¬ c.isDigit then Option.none else
    let (ipart, rest) :=
      if c == '0' then ([c], cs1.tail)
      else (cs1.takeWhile Char.isDigit, cs1.dropWhile Char.isDigit)
    let (fpart, rest2) := match rest with
      | '.' :: r =>
        let f := r.takeWhile Char.isDigit
        if f.isEmpty then ([], rest) else (f, r.dropWhile Char.isDigit)
      | _ => ([], rest)
    let fracFailed : Bool := match rest with
      | '.' :: r => (r.takeWhile Char.isDigit).isEmpty
      | _ => false
    if fracFailed then Option.none else
    let (epart, rest3, expOk) := match rest2 with
      | 'e' :: r | 'E' :: r =>
        let (eneg, r1) := match r with
          | '-' :: r2 => (true, r2)
          | '+' :: r2 => (false, r2)
          | _ => (false, r)
        let ds := r1.takeWhile Char.isDigit
        if ds.isEmpty then (((0 : Int), false), rest2, false)
        else (((if eneg then -(digitsVal ds : Int) else (digitsVal ds : Int)), true),
              r1.dropWhile Char.isDigit, true)
      | _ => (((0 : Int), false), rest2, true)
    if ¬ expOk then Option.none else
    let num : Int := (digitsVal ipart * 10 ^ fpart.length + digitsVal fpart : Nat)
    let num : Int := if neg then -num else num
    let mag : ℚ :=
      if 0 ≤ epart.1 then
        mkRat (num * (10 : Int) ^ epart.1.toNat) (10 ^ fpart.length)
      else
        mkRat num (10 ^ fpart.length * 10 ^ (-epart.1).toNat)
    let isFloat := ¬ fpart.isEmpty ∨ epart.2
    let v : PyObj :=
      if isFloat then .float mag
      else .int (if neg then -(digitsVal ipart : Int) else (digitsVal ipart : Int))
    some (v, rest3)
  | [] => Option.none

/-- Python-dict insertion: an existing key keeps its position and takes the
new value, a new key is appended (CPython semantics for duplicate keys in a
JSON object: last value wins). -/
def pyInsert (fields : List (String × PyObj)) (k : String) (v : PyObj) :
    List (String × PyObj) :=
  if fields.any (fun p => p.1 == k) then
    fields.map (fun p => if p.1 == k then (k, v) else p)
  else fields ++ [(k, v)]

mutual

/-- Parse one JSON value (after skipping leading whitespace).  The fuel
argument only bounds recursion depth; every recursive call consumes at least
one input character, so `length + 2` fuel at top level never runs out. -/
def parseVal : Nat → List Char → Option (PyObj × List Char)
  | 0, _ => Option.none
  | Nat.succ fuel, cs =>
    match cs.dropWhile jsonWs with
    | '{' :: rest =>
      (match rest.dropWhile jsonWs with
       | '}' :: r => some (PyObj.dict [], r)
       | _ => parseMembers fuel [] rest)
    | '[' :: rest =>
      (match rest.dropWhile jsonWs with
       | ']' :: r => some (PyObj.list [], r)
       | _ => parseItems fuel [] rest)
    | '"' :: rest =>
      (parseStrBody (rest.length + 1) [] rest).map (fun p => (PyObj.str p.1, p.2))
    | 't' :: 'r' :: 'u' :: 'e' :: r => some (PyObj.bool true, r)
    | 'f' :: 'a' :: 'l' :: 's' :: 'e' :: r => some (PyObj.bool false, r)
    | 'n' :: 'u' :: 'l' :: 'l' :: r => some (PyObj.none, r)
    | 'N' :: 'a' :: 'N' :: r => some (PyObj.float 0, r)
    | 'I' :: 'n' :: 'f' :: 'i' :: 'n' :: 'i' :: 't' :: 'y' :: r =>
      some (PyObj.float 0, r)
    | '-' :: 'I' :: 'n' :: 'f' :: 'i' :: 'n' :: 'i' :: 't' :: 'y' :: r =>
      some (PyObj.float 0, r)
    | rest => parseNum rest

/-- Members of a JSON object after `{` (at least one member present). -/
def parseMembers : Nat → List (String × PyObj) → List Char →
    Option (PyObj × List Char)
  | 0, _, _ => Option.none
  | Nat.succ fuel, acc, cs =>
    match cs.dropWhile jsonWs with
    | '"' :: rest =>
      match parseStrBody (rest.length + 1) [] rest with
      | some (k, r1) =>
        (match r1.dropWhile jsonWs with
         | ':' :: r2 =>
           match parseVal fuel r2 with
           | some (v, r3) =>
             (match r3.dropWhile jsonWs with
              | ',' :: r4 => parseMembers fuel (pyInsert acc k v) r4
              | '}' :: r4 => some (PyObj.dict (pyInsert acc k v), r4)
              | _ => Option.none)
           | Option.none => Option.none
         | _ => Option.none)
      | Option.none => Option.none
    | _ => Option.none

/-- Items of a JSON array after `[` (at least one item present). -/
def parseItems : Nat → List PyObj → List Char → Option (PyObj × List Char)
  | 0, _, _ => Option.none
  | Nat.succ fuel, acc, cs =>
    match parseVal fuel cs with
    | some (v, r) =>
      (match r.dropWhile jsonWs with
       | ',' :: r2 => parseItems fuel (v :: acc) r2
       | ']' :: r2 => some (PyObj.list (v :: acc).reverse, r2)
       | _ => Option.none)
    | Option.none => Option.none

end

/-- Model of `json.loads`: parse one JSON document, allowing only trailing
whitespace after it; `Option.none` models `json.JSONDecodeError`. -/
def jsonLoads (s : String) : Option PyObj :=
  match parseVal (s.length + 2) s.toList with
  | some (v, rest) =>
    if (rest.dropWhile jsonWs).isEmpty then some v else Option.none
  | Option.none => Option.none

example : jsonLoads "5" = some (PyObj.int 5) := rfl
example : jsonLoads "\x7b\x7d" = some (PyObj.dict []) := rfl
example : jsonLoads "[1, 2]" = some (PyObj.list [.int 1, .int 2]) := rfl
example : jsonLoads "print(1)" = Option.none := rfl
example : jsonLoads "1.5" = some (PyObj.float (mkRat 3 2)) := rfl
example : jsonLoads " \x7b\"a\": null\x7d " =
    some (PyObj.dict [("a", PyObj.none)]) := rfl

/-! ## Python string primitives used by the tool -/

/-- Code points stripped by Python's `str.strip()` (the `Py_UNICODE_ISSPACE`
set). -/
def pyWhitespace : List Nat :=
  [0x9, 0xA, 0xB, 0xC, 0xD, 0x1C, 0x1D, 0x1E, 0x1F, 0x20, 0x85, 0xA0,
   0x1680, 0x2000, 0x2001, 0x2002, 0x2003, 0x2004, 0x2005, 0x2006, 0x2007,
   0x2008, 0x2009, 0x200A, 0x2028, 0x2029, 0x202F, 0x205F, 0x3000]

def pyIsSpace (c : Char) : Bool := pyWhitespace.contains c.toNat

/-- Python `str.strip()`: remove leading and trailing whitespace. -/
def pyStrip (s : String) : String :=
  String.mk (((s.toList.dropWhile pyIsSpace).reverse.dropWhile pyIsSpace).reverse)

/-- Python `str.lower()`, modelled on the ASCII range (`Char.toLower`); the
deny-list tokens it is compared against are all ASCII. -/
def pyLower (s : String) : String := String.mk (s.toList.map Char.toLower)

/-- Contiguous-sublist test: `needle` occurs somewhere in the list. -/
def listHasInfix (needle : List Char) : List Char → Bool
  | [] => needle.isEmpty
  | c :: t => needle.isPrefixOf (c :: t) || listHasInfix needle t

/-- Python's substring test `needle in hay`. -/
def pyContainsSub (hay needle : String) : Bool :=
  listHasInfix needle.toList hay.toList

/-! ## SafeCodeExecutor -/

/-- The deny-list `SafeCodeExecutor.blocked_modules`, in source order.  The
source stores it as a Python `set`, whose iteration order is unspecified
(hash-randomized); theorems about the blocking message therefore only assert
that some matching token is named. -/
def blocked_modules : List String :=
  ["os", "subprocess", "sys", "socket", "urllib", "requests",
   "shutil", "pickle", "shelve", "__import__", "eval", "exec",
   "compile", "open", "file", "input", "raw_input"]

/-- The identifier set of the restricted namespace built by
`SafeCodeExecutor._create_safe_globals` (the keys of `safe_builtins`); the
mapped callables are the CPython builtins of the same names and are not
further modelled. -/
def safe_builtins : List String :=
  ["abs", "all", "any", "bin", "bool",
   "chr", "dict", "enumerate", "filter",
   "float", "format", "hex", "int",
   "isinstance", "len", "list", "map",
   "max", "min", "ord", "pow", "print",
   "range", "reversed", "round", "set",
   "sorted", "str", "sum", "tuple",
   "type", "zip"]

/-- How a single `exec(code, safe_globals, safe_locals)` run ends, covering
exactly the exception classes the executor distinguishes. -/
inductive RunEnd where
  | ok
  | timeoutHit
  | memoryHit
  | syntaxBad (detail : String)
  | excOther (kind detail : String)

/-- Observable behaviour of one `exec` run: the text written to the
redirected stdout/stderr before the run ended, and how it ended. -/
structure RunBehavior where
  out : String
  err : String
  ending : RunEnd

/-- Oracle abstracting the dynamic semantics of `exec` in the restricted
environment (which is rebuilt deterministically per call, so the behaviour is
a function of the code text alone).  All theorems quantify over it. -/
def ExecOracle := String → RunBehavior

/-- A process output sink: either an OS-level handle (the original
`sys.stdout` / `sys.stderr`) or a per-call `StringIO` capture buffer. -/
inductive Sink where
  | handle (n : Nat)
  | buffer

/-- The process-wide mutable state the executor touches: the current
`sys.stdout` and `sys.stderr` sinks and the pending `signal.alarm` deadline
(`0` = no pending alarm). -/
structure SysState where
  stdoutSink : Sink
  stderrSink : Sink
  alarm : Nat

/-- The result dictionary of `SafeCodeExecutor.execute`
(keys `output`, `errors`, `success`, `message`). -/
structure ExecOutcome where
  output : String
  errors : String
  success : Bool
  message : String

/-- Model of `SafeCodeExecutor.execute`, with the process-wide state passed
explicitly.  The try-block either returns early (invalid input, deny-list
hit) before the alarm is set and the sinks are redirected, or sets the alarm,
redirects both sinks to capture buffers and runs the code; the `finally`
block then cancels the alarm, restores the saved sinks and copies the capture
buffers into the result. -/
def SafeCodeExecutor.execute (timeout : Nat) (oracle : ExecOracle)
    (code : PyObj) (st0 : SysState) : ExecOutcome × SysState :=
  let original_stdout := st0.stdoutSink
  let original_stderr := st0.stderrSink
  let tryBlock : (String × String × Bool × String) × SysState :=
    match code with
    | .str s =>
      if s.isEmpty then (("", "", false, "Invalid code input"), st0)
      else
        match blocked_modules.find? (fun b => pyContainsSub (pyLower s) b) with
        | some b =>
          (("", "", false, "Blocked operation detected: " ++ b), st0)
        | Option.none =>
          let st1 : SysState := ⟨st0.stdoutSink, st0.stderrSink, timeout⟩
          let st2 : SysState := ⟨Sink.buffer, Sink.buffer, st1.alarm⟩
          let beh := oracle s
          let (succ, msg) : Bool × String :=
            match beh.ending with
            | .ok => (true, "Code executed successfully")
            | .timeoutHit =>
              (false, "Code execution exceeded " ++ toString timeout ++ " seconds")
            | .memoryHit => (false, "Memory limit exceeded")
            | .syntaxBad d => (false, "Syntax error: " ++ d)
            | .excOther k d => (false, "Execution error: " ++ k ++ ": " ++ d)
          ((beh.out, beh.err, succ, msg), st2)
    | _ => (("", "", false, "Invalid code input"), st0)
  let ((capOut, capErr, succ, msg), stTry) := tryBlock
  let stCancelled : SysState := ⟨stTry.stdoutSink, stTry.stderrSink, 0⟩
  let stRestored : SysState := ⟨original_stdout, original_stderr, stCancelled.alarm⟩
  (⟨capOut, capErr, succ, msg⟩, stRestored)

/-- Pure view of `SafeCodeExecutor.execute` (the returned dictionary). -/
def executePure (timeout : Nat) (oracle : ExecOracle) (code : PyObj) :
    ExecOutcome :=
  (SafeCodeExecutor.execute timeout oracle code ⟨.handle 0, .handle 1, 0⟩).1

/-! ## difflib.SequenceMatcher, as used: SequenceMatcher(None, a, b).ratio()

`isjunk` is `None`, so the junk set is empty and the junk-extension loops of
`find_longest_match` never fire; the `autojunk` heuristic (default `True`)
still purges popular elements from `b2j` when `len(b) >= 200`. -/

/-- The `b2j` index of `SequenceMatcher.__chain_b`: positions of `c` in `b`
in increasing order, with popular elements (more than `len(b)//100 + 1`
occurrences when `len(b) >= 200`) purged. -/
def b2j (b : List Char) (c : Char) : List Nat :=
  let idxs := (List.range b.length).filter (fun j => b.getD j ' ' == c)
  if b.length ≥ 200 ∧ idxs.length > b.length / 100 + 1 then [] else idxs

/-- One iteration of the inner `for j in b2j[a[i]]` loop of
`find_longest_match`: state is (`newj2len`, `besti`, `bestj`, `bestsize`),
`j2old` is the `j2len` mapping from the previous outer iteration (total
function, zero off its keys; the `j2len.get(j-1, 0)` read at `j = 0` is
Python's `get(-1, 0)`, hence zero). -/
def flmJStep (j2old : Nat → Nat) (i : Nat)
    (st : (Nat → Nat) × Nat × Nat × Nat) (j : Nat) :
    (Nat → Nat) × Nat × Nat × Nat :=
  let k := (if j = 0 then 0 else j2old (j - 1)) + 1
  let nj := fun x => if x = j then k else st.1 x
  if st.2.2.2 < k then (nj, i + 1 - k, j + 1 - k, k)
  else (nj, st.2)

/-- One iteration of the outer `for i in range(alo, ahi)` loop.  Python skips
`j < blo` (`continue`) and stops at `j >= bhi` (`break`); as the index list
is increasing this equals restricting to `[blo, bhi)`. -/
def flmIStep (a b : List Char) (blo bhi : Nat)
    (st : (Nat → Nat) × Nat × Nat × Nat) (i : Nat) :
    (Nat → Nat) × Nat × Nat × Nat :=
  let js := (b2j b (a.getD i ' ')).filter (fun j => blo ≤ j && j < bhi)
  js.foldl (flmJStep st.1 i) ((fun _ => 0), st.2)

/-- The dynamic-programming phase of `find_longest_match`, returning the best
`(besti, bestj, bestsize)` before the extension loops. -/
def flmPhase1 (a b : List Char) (alo ahi blo bhi : Nat) : Nat × Nat × Nat :=
  ((List.range' alo (ahi - alo)).foldl (flmIStep a b blo bhi)
    ((fun _ => 0), alo, blo, 0)).2

/-- The first extension loop of `find_longest_match`: grow the best block
leftwards while the preceding elements agree. -/
def extendFront (a b : List Char) (alo blo besti bestj bestsize : Nat) :
    Nat × Nat × Nat :=
  if alo < besti ∧ blo < bestj ∧
      a.getD (besti - 1) ' ' == b.getD (bestj - 1) ' ' then
    extendFront a b alo blo (besti - 1) (bestj - 1) (bestsize + 1)
  else (besti, bestj, bestsize)
termination_by besti
decreasing_by omega

/-- The second extension loop of `find_longest_match`: grow the best block
rightwards while the following elements agree. -/
def extendBack (a b : List Char) (ahi bhi besti bestj bestsize : Nat) : Nat :=
  if besti + bestsize < ahi ∧ bestj + bestsize < bhi ∧
      a.getD (besti + bestsize) ' ' == b.getD (bestj + bestsize) ' ' then
    extendBack a b ahi bhi besti bestj (bestsize + 1)
  else bestsize
termination_by ahi - (besti + bestsize)
decreasing_by omega

/-- `SequenceMatcher.find_longest_match` on `[alo, ahi) × [blo, bhi)`
(`isjunk = None`, so the two junk-extension loops are identities). -/
def find_longest_match (a b : List Char) (alo ahi blo bhi : Nat) :
    Nat × Nat × Nat :=
  let p := flmPhase1 a b alo ahi blo bhi
  let q := extendFront a b alo blo p.1 p.2.1 p.2.2
  (q.1, q.2.1, extendBack a b ahi bhi q.1 q.2.1 q.2.2)

/-- Fold invariant preservation (generic helper). -/
theorem foldl_inv {α β : Type} (P : β → Prop) (f : β → α → β) :
    ∀ (l : List α) (b : β), P b → (∀ x ∈ l, ∀ s, P s → P (f s x)) →
    P (l.foldl f b) := by
  intro l
  induction l with
  | nil => intro b hb _; exact hb
  | cons x t ih =>
    intro b hb hstep
    exact ih (f b x) (hstep x (List.mem_cons_self x t) b hb)
      (fun y hy s hs => hstep y (List.mem_cons_of_mem x hy) s hs)

/-- Invariant of the `j2len` mappings in `find_longest_match`: every stored
run length `f x` reaches neither left of `alo` (relative to the bound `i`)
nor left of `blo` (relative to the position `x`). -/
def MapOK (alo blo bound : Nat) (f : Nat → Nat) : Prop :=
  ∀ x, f x = 0 ∨ (alo + f x ≤ bound ∧ blo + f x ≤ x + 1)

/-- Invariant of the best block `(besti, bestj, bestsize)`: it lies inside
`[alo, ahi) × [blo, bhi)` whenever nonempty, and an empty best is still the
initial `(alo, blo)`. -/
def BestOK (alo ahi blo bhi : Nat) (t : Nat × Nat × Nat) : Prop :=
  alo ≤ t.1 ∧ blo ≤ t.2.1 ∧
  (t.2.2 = 0 → t.1 = alo ∧ t.2.1 = blo) ∧
  (0 < t.2.2 → t.1 + t.2.2 ≤ ahi ∧ t.2.1 + t.2.2 ≤ bhi)

theorem bestOK_mk (alo ahi blo bhi x y z : Nat) (h1 : alo ≤ x) (h2 : blo ≤ y)
    (h3 : z = 0 → x = alo ∧ y = blo)
    (h4 : 0 < z → x + z ≤ ahi ∧ y + z ≤ bhi) :
    BestOK alo ahi blo bhi (x, y, z) := ⟨h1, h2, h3, h4⟩

theorem flmJStep_ok {alo ahi blo bhi i j : Nat} {j2old : Nat → Nat}
    {st : (Nat → Nat) × Nat × Nat × Nat}
    (hj2 : MapOK alo blo i j2old) (hjlo : blo ≤ j) (hjhi : j < bhi)
    (hilo : alo ≤ i) (hihi : i < ahi)
    (hmap : MapOK alo blo (i + 1) st.1) (hbest : BestOK alo ahi blo bhi st.2) :
    MapOK alo blo (i + 1) (flmJStep j2old i st j).1 ∧
    BestOK alo ahi blo bhi (flmJStep j2old i st j).2 := by
  have hk : alo + ((if j = 0 then 0 else j2old (j - 1)) + 1) ≤ i + 1 ∧
      blo + ((if j = 0 then 0 else j2old (j - 1)) + 1) ≤ j + 1 := by
    by_cases h0 : j = 0
    · subst h0
      rw [if_pos rfl]
      omega
    · rw [if_neg h0]
      rcases hj2 (j - 1) with hz | ⟨hz1, hz2⟩
      · rw [hz]; omega
      · omega
  obtain ⟨k, hkeq⟩ : ∃ k, (if j = 0 then 0 else j2old (j - 1)) + 1 = k :=
    ⟨_, rfl⟩
  rw [hkeq] at hk
  constructor
  · intro x
    have hval : (flmJStep j2old i st j).1 x =
        if x = j then k else st.1 x := by
      simp only [flmJStep, hkeq]
      split <;> rfl
    rw [hval]
    by_cases hx : x = j
    · rw [if_pos hx]
      right
      subst hx
      exact hk
    · rw [if_neg hx]
      exact hmap x
  · simp only [flmJStep, hkeq]
    split
    case isTrue h =>
      exact bestOK_mk _ _ _ _ _ _ _ (by omega) (by omega) (by omega) (by omega)
    case isFalse h => exact hbest

theorem flmIStep_ok (a b : List Char) {alo : Nat} (ahi : Nat) {blo bhi i : Nat}
    (st : (Nat → Nat) × Nat × Nat × Nat)
    (hilo : alo ≤ i) (hihi : i < ahi)
    (hmap : MapOK alo blo i st.1) (hbest : BestOK alo ahi blo bhi st.2) :
    MapOK alo blo (i + 1) (flmIStep a b blo bhi st i).1 ∧
    BestOK alo ahi blo bhi (flmIStep a b blo bhi st i).2 := by
  unfold flmIStep
  refine foldl_inv
    (fun (s : (Nat → Nat) × Nat × Nat × Nat) =>
      MapOK alo blo (i + 1) s.1 ∧ BestOK alo ahi blo bhi s.2)
    _ _ _ ?_ ?_
  · constructor
    · intro x; left; rfl
    · exact hbest
  · intro j hj s hs
    have hmem := List.mem_filter.mp hj
    have hrange : blo ≤ j ∧ j < bhi := by
      have := hmem.2
      simp only [Bool.and_eq_true, decide_eq_true_eq] at this
      omega
    exact flmJStep_ok hmap hrange.1 hrange.2 hilo hihi hs.1 hs.2

theorem flmPhase1_fold_ok (a b : List Char) (alo ahi blo bhi : Nat) :
    ∀ (n start : Nat) (st : (Nat → Nat) × Nat × Nat × Nat),
    alo ≤ start → start + n ≤ ahi →
    MapOK alo blo start st.1 → BestOK alo ahi blo bhi st.2 →
    BestOK alo ahi blo bhi
      (((List.range' start n).foldl (flmIStep a b blo bhi) st).2) := by
  intro n
  induction n with
  | zero => intro start st _ _ _ hbest; exact hbest
  | succ n ih =>
    intro start st hlo hhi hmap hbest
    rw [List.range'_succ, List.foldl_cons]
    have hstep := flmIStep_ok a b ahi st hlo (by omega) hmap hbest
    exact ih (start + 1) _ (by omega) (by omega) hstep.1 hstep.2

theorem flmPhase1_ok (a b : List Char) (alo ahi blo bhi : Nat) :
    BestOK alo ahi blo bhi (flmPhase1 a b alo ahi blo bhi) := by
  unfold flmPhase1
  by_cases h : alo ≤ ahi
  · exact flmPhase1_fold_ok a b alo ahi blo bhi (ahi - alo) alo _
      le_rfl (by omega)
      (fun x => Or.inl rfl)
      (bestOK_mk _ _ _ _ _ _ _ le_rfl le_rfl (fun _ => ⟨rfl, rfl⟩) (by omega))
  · have h0 : ahi - alo = 0 := by omega
    rw [h0]
    exact bestOK_mk _ _ _ _ _ _ _ le_rfl le_rfl (fun _ => ⟨rfl, rfl⟩) (by omega)

theorem extendFront_ok (a b : List Char) (alo ahi blo bhi : Nat) :
    ∀ (besti bestj bestsize : Nat), alo ≤ besti → blo ≤ bestj →
    (bestsize = 0 → besti = alo ∧ bestj = blo) →
    (0 < bestsize → besti + bestsize ≤ ahi ∧ bestj + bestsize ≤ bhi) →
    BestOK alo ahi blo bhi (extendFront a b alo blo besti bestj bestsize) := by
  intro besti
  induction besti using Nat.strong_induction_on with
  | _ besti ih =>
    intro bestj bestsize h1 h2 h3 h4
    rw [extendFront]
    split
    case isTrue h =>
      refine ih (besti - 1) (by omega) (bestj - 1) (bestsize + 1)
        (by omega) (by omega) (by omega) ?_
      intro _
      by_cases hz : bestsize = 0
      · rcases h3 hz with ⟨e1, e2⟩; omega
      · have := h4 (by omega); omega
    case isFalse h =>
      exact ⟨h1, h2, h3, h4⟩

theorem extendBack_ok (a b : List Char) (ahi bhi besti bestj : Nat) :
    ∀ (m bestsize : Nat), m = ahi - (besti + bestsize) →
    (0 < bestsize → besti + bestsize ≤ ahi ∧ bestj + bestsize ≤ bhi) →
    (0 < extendBack a b ahi bhi besti bestj bestsize →
      besti + extendBack a b ahi bhi besti bestj bestsize ≤ ahi ∧
      bestj + extendBack a b ahi bhi besti bestj bestsize ≤ bhi) := by
  intro m
  induction m using Nat.strong_induction_on with
  | _ m ih =>
    intro bestsize hm h4
    rw [extendBack]
    split
    case isTrue h =>
      exact ih (ahi - (besti + (bestsize + 1))) (by omega) (bestsize + 1)
        rfl (fun _ => by omega)
    case isFalse h =>
      exact h4

/-- The block returned by `find_longest_match` lies inside the queried
rectangle whenever it is nonempty, and its corner never lies left of it. -/
theorem flm_ok (a b : List Char) (alo ahi blo bhi : Nat) :
    alo ≤ (find_longest_match a b alo ahi blo bhi).1 ∧
    blo ≤ (find_longest_match a b alo ahi blo bhi).2.1 ∧
    (0 < (find_longest_match a b alo ahi blo bhi).2.2 →
      (find_longest_match a b alo ahi blo bhi).1 +
        (find_longest_match a b alo ahi blo bhi).2.2 ≤ ahi ∧
      (find_longest_match a b alo ahi blo bhi).2.1 +
        (find_longest_match a b alo ahi blo bhi).2.2 ≤ bhi) := by
  unfold find_longest_match
  have hp := flmPhase1_ok a b alo ahi blo bhi
  have hf := extendFront_ok a b alo ahi blo bhi
    (flmPhase1 a b alo ahi blo bhi).1
    (flmPhase1 a b alo ahi blo bhi).2.1
    (flmPhase1 a b alo ahi blo bhi).2.2
    hp.1 hp.2.1 hp.2.2.1 hp.2.2.2
  have hb := extendBack_ok a b ahi bhi
    (extendFront a b alo blo (flmPhase1 a b alo ahi blo bhi).1
      (flmPhase1 a b alo ahi blo bhi).2.1 (flmPhase1 a b alo ahi blo bhi).2.2).1
    (extendFront a b alo blo (flmPhase1 a b alo ahi blo bhi).1
      (flmPhase1 a b alo ahi blo bhi).2.1 (flmPhase1 a b alo ahi blo bhi).2.2).2.1
    _
    (extendFront a b alo blo (flmPhase1 a b alo ahi blo bhi).1
      (flmPhase1 a b alo ahi blo bhi).2.1 (flmPhase1 a b alo ahi blo bhi).2.2).2.2
    rfl hf.2.2.2
  exact ⟨hf.1, hf.2.1, hb⟩

/-- Sum of the sizes of the blocks produced by
`SequenceMatcher.get_matching_blocks` over the rectangle
`[alo, ahi) × [blo, bhi)`, i.e. the `matches` value that feeds `ratio`.
The source processes the subrectangles through an explicit queue and then
sorts and coalesces the blocks; neither step changes the sum of sizes, so the
queue is modelled by direct recursion into the two subrectangles. -/
def get_matching_sum (a b : List Char) (alo ahi blo bhi : Nat) : Nat :=
  if (find_longest_match a b alo ahi blo bhi).2.2 = 0 then 0
  else
    (find_longest_match a b alo ahi blo bhi).2.2 +
    (if alo < (find_longest_match a b alo ahi blo bhi).1 ∧
        blo < (find_longest_match a b alo ahi blo bhi).2.1 then
      get_matching_sum a b alo (find_longest_match a b alo ahi blo bhi).1
        blo (find_longest_match a b alo ahi blo bhi).2.1 else 0) +
    (if (find_longest_match a b alo ahi blo bhi).1 +
          (find_longest_match a b alo ahi blo bhi).2.2 < ahi ∧
        (find_longest_match a b alo ahi blo bhi).2.1 +
          (find_longest_match a b alo ahi blo bhi).2.2 < bhi then
      get_matching_sum a b
        ((find_longest_match a b alo ahi blo bhi).1 +
          (find_longest_match a b alo ahi blo bhi).2.2) ahi
        ((find_longest_match a b alo ahi blo bhi).2.1 +
          (find_longest_match a b alo ahi blo bhi).2.2) bhi else 0)
termination_by (ahi - alo) + (bhi - blo)
decreasing_by
  · have hf := flm_ok a b alo ahi blo bhi
    omega
  · have hf := flm_ok a b alo ahi blo bhi
    omega

/-- The matching total never exceeds either side of the rectangle. -/
theorem get_matching_sum_le (a b : List Char) :
    ∀ (n alo ahi blo bhi : Nat), (ahi - alo) + (bhi - blo) ≤ n →
    get_matching_sum a b alo ahi blo bhi ≤ min (ahi - alo) (bhi - blo) := by
  intro n
  induction n with
  | zero =>
    intro alo ahi blo bhi hn
    rw [get_matching_sum]
    have hf := flm_ok a b alo ahi blo bhi
    split
    case isTrue => exact Nat.zero_le _
    case isFalse hk => omega
  | succ n ih =>
    intro alo ahi blo bhi hn
    rw [get_matching_sum]
    have hf := flm_ok a b alo ahi blo bhi
    split
    case isTrue => exact Nat.zero_le _
    case isFalse hk =>
      have hb := hf.2.2 (by omega)
      by_cases hc1 : alo < (find_longest_match a b alo ahi blo bhi).1 ∧
          blo < (find_longest_match a b alo ahi blo bhi).2.1
      all_goals by_cases hc2 :
        (find_longest_match a b alo ahi blo bhi).1 +
          (find_longest_match a b alo ahi blo bhi).2.2 < ahi ∧
        (find_longest_match a b alo ahi blo bhi).2.1 +
          (find_longest_match a b alo ahi blo bhi).2.2 < bhi
      all_goals first
        | (rw [if_pos hc1, if_pos hc2]
           have h1 := ih alo (find_longest_match a b alo ahi blo bhi).1
             blo (find_longest_match a b alo ahi blo bhi).2.1 (by omega)
           have h2 := ih ((find_longest_match a b alo ahi blo bhi).1 +
               (find_longest_match a b alo ahi blo bhi).2.2) ahi
             ((find_longest_match a b alo ahi blo bhi).2.1 +
               (find_longest_match a b alo ahi blo bhi).2.2) bhi (by omega)
           omega)
        | (rw [if_pos hc1, if_neg hc2]
           have h1 := ih alo (find_longest_match a b alo ahi blo bhi).1
             blo (find_longest_match a b alo ahi blo bhi).2.1 (by omega)
           omega)
        | (rw [if_neg hc1, if_pos hc2]
           have h2 := ih ((find_longest_match a b alo ahi blo bhi).1 +
               (find_longest_match a b alo ahi blo bhi).2.2) ahi
             ((find_longest_match a b alo ahi blo bhi).2.1 +
               (find_longest_match a b alo ahi blo bhi).2.2) bhi (by omega)
           omega)
        | (rw [if_neg hc1, if_neg hc2]
           omega)

/-- `SequenceMatcher.ratio()` (via `difflib._calculate_ratio`):
`2.0 * matches / (len(a) + len(b))`, or `1.0` for two empty sequences;
the double division is idealized as an exact rational. -/
def sequence_ratio (a b : List Char) : ℚ :=
  if a.length + b.length = 0 then 1
  else mkRat (2 * (get_matching_sum a b 0 a.length 0 b.length : Int))
    (a.length + b.length)

/-- `SequenceMatcher(None, s, t).ratio()` on strings. -/
def ratio_of (s t : String) : ℚ := sequence_ratio s.toList t.toList

theorem sequence_ratio_nonneg (a b : List Char) : 0 ≤ sequence_ratio a b := by
  unfold sequence_ratio
  split
  · norm_num
  · rw [Rat.mkRat_eq_div]
    apply div_nonneg
    · positivity
    · positivity

theorem sequence_ratio_le_one (a b : List Char) : sequence_ratio a b ≤ 1 := by
  unfold sequence_ratio
  split
  · norm_num
  case isFalse hne =>
    have hm := get_matching_sum_le a b (a.length + b.length)
      0 a.length 0 b.length (by omega)
    rw [Rat.mkRat_eq_div]
    rw [div_le_one (by positivity)]
    have h2 : 2 * get_matching_sum a b 0 a.length 0 b.length ≤
        a.length + b.length := by omega
    exact_mod_cast h2

/-- Model of `CodeExecutorTool.execute_simple`: run the raw string as code
and wrap the outcome in the five-key result dictionary (the tool is
constructed with `timeout=5`). -/
def execute_simple (oracle : ExecOracle) (code : String) : PyObj :=
  let r := executePure 5 oracle (.str code)
  .dict [("code", .str code),
         ("execution_success", .bool r.success),
         ("output", .str r.output),
         ("errors", .str r.errors),
         ("message", .str r.message)]

/-! ## Output comparator and execution facade -/

/-- Python `dict.get(k, d)` on a string-keyed dictionary. -/
def pyGet (fields : List (String × PyObj)) (k : String) (d : PyObj) : PyObj :=
  match fields.find? (fun p => p.1 == k) with
  | some p => p.2
  | Option.none => d

/-- Python `v == s` for a string literal `s` (false for any non-`str` value,
never an error). -/
def pyEqStr (v : PyObj) (s : String) : Bool :=
  match v with
  | .str t => t == s
  | _ => false

def PyObj.isNone : PyObj → Bool
  | .none => true
  | _ => false

/-- Key membership in a result dictionary. -/
def PyObj.hasKey (v : PyObj) (k : String) : Bool :=
  match v with
  | .dict fields => fields.any (fun p => p.1 == k)
  | _ => false

/-- Field lookup in a result dictionary. -/
def PyObj.lookup (v : PyObj) (k : String) : Option PyObj :=
  match v with
  | .dict fields => (fields.find? (fun p => p.1 == k)).map (fun p => p.2)
  | _ => Option.none

/-- Idealized decimal rendering of a float (exact when the denominator is
10-smooth, which holds for every JSON-parsed float; CPython's shortest-repr
formatting is not modelled further). -/
def floatRepr (q : ℚ) : String :=
  match (List.range 40).find? (fun k => 10 ^ k % q.den == 0) with
  | some k =>
    let scaled : Int := q.num * (((10 ^ k : Nat) / q.den : Nat) : Int)
    let sign := if scaled < 0 then "-" else ""
    let m := scaled.natAbs
    if k = 0 then sign ++ toString m ++ ".0"
    else
      let fs := toString (m % 10 ^ k)
      sign ++ toString (m / 10 ^ k) ++ "." ++
        String.mk (List.replicate (k - fs.length) '0') ++ fs
  | Option.none => toString q.num ++ "/" ++ toString q.den

mutual

/-- Python `repr()` on the modelled values (string escaping inside reprs is
idealized away; only `str()` of scalar values is ever observed by the tool). -/
def pyRepr : PyObj → String
  | .none => "None"
  | .bool true => "True"
  | .bool false => "False"
  | .int n => toString n
  | .float q => floatRepr q
  | .str s => "'" ++ s ++ "'"
  | .list xs => "[" ++ pyReprSeq xs ++ "]"
  | .dict fs => "\x7b" ++ pyReprFields fs ++ "\x7d"

def pyReprSeq : List PyObj → String
  | [] => ""
  | [x] => pyRepr x
  | x :: xs => pyRepr x ++ ", " ++ pyReprSeq xs

def pyReprFields : List (String × PyObj) → String
  | [] => ""
  | [(k, v)] => "'" ++ k ++ "': " ++ pyRepr v
  | (k, v) :: fs => "'" ++ k ++ "': " ++ pyRepr v ++ ", " ++ pyReprFields fs

end

/-- Python `str()`, as used in f-string interpolation. -/
def pyStr : PyObj → String
  | .str s => s
  | v => pyRepr v

/-- The `:.1f` format specifier, idealized on exact rationals (round to one
decimal; CPython rounds the underlying double half-to-even). -/
def fmt1 (q : ℚ) : String :=
  let n : Int := round (q * 10)
  (if n < 0 then "-" else "") ++
    toString (n.natAbs / 10) ++ "." ++ toString (n.natAbs % 10)

/-- The `{similarity*100:.1f}` interpolation used in the details strings. -/
def fmtPct (sim : ℚ) : String := fmt1 (sim * 100)

/-- The `[:200]`-plus-ellipsis preview of `_create_diff_message`. -/
def preview200 (s : String) : String :=
  if 200 < s.length then String.mk (s.toList.take 200) ++ "..." else s

/-- Model of `CodeExecutorTool._create_diff_message` (its arguments are the
already-stripped actual and expected texts). -/
def create_diff_message (actual expected : String) : String :=
  "âŒ Output does not match!\n\n" ++
  "Expected:\n" ++ preview200 expected ++ "\n\n" ++
  "Got:\n" ++ preview200 actual ++ "\n\n" ++
  "Similarity: " ++ fmt1 (ratio_of actual expected * 100) ++ "%"

/-- The four-key comparison dictionary in its final shape. -/
def mkComparisonDict (mode : PyObj) (m : Bool) (sim : ℚ) (details : String) :
    PyObj :=
  .dict [("mode", mode), ("match", .bool m),
         ("similarity", .float sim), ("details", .str details)]

/-- Model of `CodeExecutorTool._compare_outputs`.  `actual` is the captured
stdout (always a `str`); `expected` and `mode` come from the parsed request
and may be arbitrary values: a non-`str` `expected` raises `AttributeError`
at `expected.strip()` (modelled as `Except.error` with the `str(e)` text),
a non-`str` `mode` simply matches no branch.  The `0.8` threshold of the
fuzzy branch is the fixed design constant. -/
def compare_outputs (actual : String) (expected mode : PyObj) :
    Except String PyObj :=
  match expected with
  | .str e =>
    let actual_stripped := pyStrip actual
    let expected_stripped := pyStrip e
    if pyEqStr mode "exact" then
      let m := actual_stripped == expected_stripped
      .ok (mkComparisonDict mode m (if m then 1 else 0)
        (if m then "âœ… Output matches exactly!"
         else create_diff_message actual_stripped expected_stripped))
    else if pyEqStr mode "fuzzy" then
      let sim := ratio_of actual_stripped expected_stripped
      let m := decide (mkRat 4 5 ≤ sim)
      .ok (mkComparisonDict mode m sim
        (if m then
          "âœ… Output matches with " ++ fmtPct sim ++ "% similarity"
         else
          "âŒ Output only " ++ fmtPct sim ++
            "% similar. Expected at least 80%."))
    else if pyEqStr mode "contains" then
      let m := pyContainsSub actual_stripped expected_stripped
      .ok (mkComparisonDict mode m 0
        (if m then "âœ… Output contains expected text!"
         else "âŒ Output does not contain expected text: '" ++
           expected_stripped ++ "'"))
    else
      .ok (mkComparisonDict mode false 0
        ("Unknown comparison mode: " ++ pyStr mode))
  | _ =>
    .error ("'" ++ pyTypeName expected ++ "' object has no attribute 'strip'")

/-- Python `len()`: defined for the sized values (`str` by code points,
`list`, `dict`), a `TypeError` for the rest. -/
def pyLen : PyObj → Option Nat
  | .str s => some s.length
  | .list xs => some xs.length
  | .dict fs => some fs.length
  | _ => Option.none

/-- The structured branch of `CodeExecutorTool.execute_and_compare` after a
successful `json.loads`: extract `code` / `expected_output` / `compare_mode`
with their defaults, evaluate the progress message's `len(code)` (the
printed text itself goes to the process stdout, not into the result, but
`len` raises `TypeError` for an unsized `code` value such as JSON null, a
boolean or a number), execute, build the seven-key result and attach the
comparison when an expected output is present (not `None`) and execution
succeeded.  Python exceptions (`AttributeError` on non-dict `data` or
non-str expected output, `TypeError` from `len`) propagate as
`Except.error` to the `except Exception` handler. -/
def execute_structured (oracle : ExecOracle) (data : PyObj) :
    Except String PyObj :=
  match data with
  | .dict fields =>
    let code := pyGet fields "code" (.str "")
    let expected_output := pyGet fields "expected_output" .none
    let compare_mode := pyGet fields "compare_mode" (.str "exact")
    match pyLen code with
    | Option.none =>
      .error ("object of type '" ++ pyTypeName code ++ "' has no len()")
    | some _ =>
      let exec_result := executePure 5 oracle code
      let base : List (String × PyObj) :=
        [("code", code),
         ("execution_success", .bool exec_result.success),
         ("output", .str exec_result.output),
         ("errors", .str exec_result.errors),
         ("message", .str exec_result.message),
         ("expected_output", expected_output),
         ("comparison", .none)]
      if ¬ expected_output.isNone ∧ exec_result.success then
        match compare_outputs exec_result.output expected_output compare_mode with
        | .ok comparison => .ok (.dict (pyInsert base "comparison" comparison))
        | .error e => .error e
      else .ok (.dict base)
  | _ => .error ("'" ++ pyTypeName data ++ "' object has no attribute 'get'")

/-- Model of `CodeExecutorTool.execute_and_compare`: try the input as a
structured JSON request; on `json.JSONDecodeError` fall back to
`execute_simple` on the raw input; any other exception is caught by the
`except Exception` handler, which returns the two-key
`{"success": False, "error": "Tool error: ..."}` record.
The function is total: no exception escapes the facade. -/
def execute_and_compare (oracle : ExecOracle) (input_data : String) : PyObj :=
  match jsonLoads input_data with
  | Option.none => execute_simple oracle input_data
  | some data =>
    match execute_structured oracle data with
    | .ok result => result
    | .error e =>
      .dict [("success", .bool false), ("error", .str ("Tool error: " ++ e))]

/-- Model of the closure returned by `create_code_executor_tool` and
registered with the tool registry. -/
def tool_function (oracle : ExecOracle) (input_data : String) : PyObj :=
  execute_and_compare oracle input_data

/-! ## Concrete oracles for witness instantiations -/

/-- An `exec` behaviour that completes cleanly writing nothing. -/
def okOracle : ExecOracle := fun _ => ⟨"", "", .ok⟩

/-- A second, observably different clean behaviour (used to express that a
blocked request never consults the oracle). -/
def okOracle2 : ExecOracle := fun _ => ⟨"other output", "", .ok⟩

/-- The behaviour of the restricted `exec` on the snippet `print(1)`: it
prints `1` and completes cleanly.  Theorems using this oracle only ever
consult it at that code string, so the oracle agrees with the real
interpreter everywhere it is observed. -/
def printOneOracle : ExecOracle := fun _ => ⟨"1\n", "", .ok⟩

/-! ## Spec-side enumerations (for the environment-restriction claim) -/

/-- The operations the spec's Restricted Environment Builder contract
enumerates: pure computation, type constructors, iteration/inspection
helpers, and the print-equivalent (spec wording, for comparison with
`safe_builtins`). -/
def spec_enumerated_builtins : List String :=
  ["abs", "round", "pow",
   "int", "float", "str", "list", "dict", "set", "tuple",
   "len", "range", "enumerate", "zip", "map", "filter", "sorted", "reversed",
   "min", "max", "sum", "all", "any",
   "print"]

/-- The eight identifiers present in `safe_builtins` beyond the spec's
enumeration. -/
def extra_builtins : List String :=
  ["bin", "bool", "chr", "format", "hex", "isinstance", "ord", "type"]

/-- Modelled from the spec: the CPython builtins "capable of I/O, reflection
on the execution environment, or loading external code" that the spec's
exclusion clause refers to (`print`, the explicitly permitted write
primitive, excepted). -/
def io_reflection_loading_builtins : List String :=
  ["open", "input", "eval", "exec", "compile", "__import__", "globals",
   "locals", "vars", "dir", "getattr", "setattr", "delattr", "exit", "quit",
   "help", "breakpoint", "memoryview", "execfile", "reload", "importlib"]

/-- A comparison on a string expected value always lands in one of the four
`.ok` branches, returning the four-key comparison dictionary. -/
theorem compare_outputs_str_ok (actual e : String) (mode : PyObj) :
    ∃ m sim det, compare_outputs actual (.str e) mode =
      .ok (mkComparisonDict mode m sim det) := by
  unfold compare_outputs
  split_ifs <;> exact ⟨_, _, _, rfl⟩

/-! ## Claims -/

/-- C1: for every input string on which structured (JSON) parsing fails,
`execute_and_compare` treats the entire input as raw code with no expected
output — it returns exactly the `execute_simple` fallback, which is the
five-key execution-result record for the raw input.  Malformed structured
input is thus never surfaced as an error, and since the model is a total
function, no exception passes the facade boundary. -/
theorem c1_parse_failure_falls_back (oracle : ExecOracle) (s : String)
    (h : jsonLoads s = Option.none) :
    execute_and_compare oracle s = execute_simple oracle s ∧
    execute_simple oracle s =
      .dict [("code", .str s),
             ("execution_success", .bool (executePure 5 oracle (.str s)).success),
             ("output", .str (executePure 5 oracle (.str s)).output),
             ("errors", .str (executePure 5 oracle (.str s)).errors),
             ("message", .str (executePure 5 oracle (.str s)).message)] := by
  constructor
  · unfold execute_and_compare
    rw [h]
  · rfl

/-- C1 witness: the plain-text input `print(1)` is not valid JSON and falls
back to raw execution. -/
theorem c1_witness :
    jsonLoads "print(1)" = Option.none ∧
    execute_and_compare okOracle "print(1)" = execute_simple okOracle "print(1)" :=
  ⟨rfl, (c1_parse_failure_falls_back okOracle "print(1)" rfl).1⟩

/-- C9: on every exit path of `SafeCodeExecutor.execute` — success, invalid
input, policy rejection, syntax error, timeout, memory exhaustion, or any
other runtime exception (all oracle behaviours and all inputs) — the
process's stdout and stderr sinks are restored to their pre-call values and
the pending alarm is cancelled before the call returns. -/
theorem c9_streams_restored_alarm_cancelled (timeout : Nat)
    (oracle : ExecOracle) (code : PyObj) (st0 : SysState) :
    (SafeCodeExecutor.execute timeout oracle code st0).2 =
      ⟨st0.stdoutSink, st0.stderrSink, 0⟩ := by
  unfold SafeCodeExecutor.execute
  cases code <;> rfl

/-- C10: an input that parses as a JSON object without a `"code"` field does
not fall back to raw-code execution: `code` defaults to the empty string,
which the executor rejects as invalid input, giving `execution_success =
False`, message `Invalid code input`, empty output and errors, and a null
comparison. -/
theorem c10_missing_code_field (oracle : ExecOracle) (s : String)
    (fields : List (String × PyObj))
    (hparse : jsonLoads s = some (.dict fields))
    (hnocode : fields.find? (fun p => p.1 == "code") = Option.none) :
    execute_and_compare oracle s =
      .dict [("code", .str ""),
             ("execution_success", .bool false),
             ("output", .str ""),
             ("errors", .str ""),
             ("message", .str "Invalid code input"),
             ("expected_output", pyGet fields "expected_output" .none),
             ("comparison", .none)] := by
  have hcode : pyGet fields "code" (.str "") = .str "" := by
    unfold pyGet
    rw [hnocode]
  have hstruct : execute_structured oracle (.dict fields) =
      .ok (.dict [("code", .str ""),
                  ("execution_success", .bool false),
                  ("output", .str ""),
                  ("errors", .str ""),
                  ("message", .str "Invalid code input"),
                  ("expected_output", pyGet fields "expected_output" .none),
                  ("comparison", .none)]) := by
    simp only [execute_structured]
    rw [hcode]
    rw [if_neg]
    · rfl
    · intro hcond
      have hfalse : (executePure 5 oracle (PyObj.str "")).success = false := rfl
      rw [hfalse] at hcond
      exact Bool.false_ne_true hcond.2
  unfold execute_and_compare
  rw [hparse]
  dsimp only
  rw [hstruct]

/-- C10 witness: the input `{}` produces the invalid-code-input record. -/
theorem c10_witness :
    jsonLoads "\x7b\x7d" = some (.dict []) ∧
    execute_and_compare okOracle "\x7b\x7d" =
      .dict [("code", .str ""),
             ("execution_success", .bool false),
             ("output", .str ""),
             ("errors", .str ""),
             ("message", .str "Invalid code input"),
             ("expected_output", pyGet [] "expected_output" .none),
             ("comparison", .none)] :=
  ⟨rfl, c10_missing_code_field okOracle "\x7b\x7d" [] rfl rfl⟩

/-- C4: exact-mode comparison strips leading/trailing whitespace from both
inputs, reports a match exactly when the stripped strings are equal, sets the
similarity to `1.0` on match and `0.0` otherwise, and is in particular
reflexive. -/
theorem c4_exact_mode (a e : String) :
    (∃ c, compare_outputs a (.str e) (.str "exact") = .ok c ∧
      c.lookup "match" = some (.bool (pyStrip a == pyStrip e)) ∧
      c.lookup "similarity" =
        some (.float (if pyStrip a == pyStrip e then 1 else 0))) ∧
    (∃ c, compare_outputs a (.str a) (.str "exact") = .ok c ∧
      c.lookup "match" = some (.bool true)) := by
  constructor
  · exact ⟨_, rfl, rfl, rfl⟩
  · refine ⟨_, rfl, ?_⟩
    show some (PyObj.bool (pyStrip a == pyStrip a)) = some (PyObj.bool true)
    rw [beq_self_eq_true]

/-- C5: fuzzy-mode comparison sets the similarity to the
`SequenceMatcher`-style longest-matching-block ratio of the two stripped
strings — a value in `[0, 1]` — and reports a match exactly when that
similarity is at least `0.80`. -/
theorem c5_fuzzy_mode (a e : String) :
    ∃ c, compare_outputs a (.str e) (.str "fuzzy") = .ok c ∧
      c.lookup "similarity" =
        some (.float (ratio_of (pyStrip a) (pyStrip e))) ∧
      (c.lookup "match" = some (.bool true) ↔
        mkRat 4 5 ≤ ratio_of (pyStrip a) (pyStrip e)) ∧
      0 ≤ ratio_of (pyStrip a) (pyStrip e) ∧
      ratio_of (pyStrip a) (pyStrip e) ≤ 1 := by
  refine ⟨_, rfl, rfl, ?_,
    sequence_ratio_nonneg _ _, sequence_ratio_le_one _ _⟩
  show some (PyObj.bool (decide (mkRat 4 5 ≤ ratio_of (pyStrip a) (pyStrip e))))
      = some (PyObj.bool true) ↔ _
  simp

/-- C6: on an exact-mode mismatch, the details string is the diff message,
which contains previews of both the expected and the actual stripped text —
each showing at most the first 200 characters, with an ellipsis when
truncated — plus a computed similarity ratio. -/
theorem c6_exact_mismatch_details (a e : String)
    (h : pyStrip a ≠ pyStrip e) :
    ∃ c, compare_outputs a (.str e) (.str "exact") = .ok c ∧
      c.lookup "match" = some (.bool false) ∧
      c.lookup "details" =
        some (.str (create_diff_message (pyStrip a) (pyStrip e))) ∧
      create_diff_message (pyStrip a) (pyStrip e) =
        "âŒ Output does not match!\n\n" ++
        "Expected:\n" ++ preview200 (pyStrip e) ++ "\n\n" ++
        "Got:\n" ++ preview200 (pyStrip a) ++ "\n\n" ++
        "Similarity: " ++ fmt1 (ratio_of (pyStrip a) (pyStrip e) * 100) ++ "%" ∧
      preview200 (pyStrip e) =
        (if 200 < (pyStrip e).length
         then String.mk ((pyStrip e).toList.take 200) ++ "..."
         else pyStrip e) ∧
      preview200 (pyStrip a) =
        (if 200 < (pyStrip a).length
         then String.mk ((pyStrip a).toList.take 200) ++ "..."
         else pyStrip a) ∧
      ((pyStrip e).toList.take 200).length ≤ 200 ∧
      ((pyStrip a).toList.take 200).length ≤ 200 := by
  have hbe : (pyStrip a == pyStrip e) = false := beq_eq_false_iff_ne.mpr h
  refine ⟨_, rfl, ?_, ?_, rfl, rfl, rfl, ?_, ?_⟩
  · show some (PyObj.bool (pyStrip a == pyStrip e)) = some (PyObj.bool false)
    rw [hbe]
  · show some (PyObj.str (if pyStrip a == pyStrip e
        then "âœ… Output matches exactly!"
        else create_diff_message (pyStrip a) (pyStrip e))) = _
    rw [hbe]
    rfl
  · rw [List.length_take]
    exact min_le_left _ _
  · rw [List.length_take]
    exact min_le_left _ _

/-- C6 witness: the one-character outputs `a` and `b` mismatch and produce
the diff-message details. -/
theorem c6_witness :
    pyStrip "a" ≠ pyStrip "b" ∧
    (∃ c, compare_outputs "a" (.str "b") (.str "exact") = .ok c ∧
      c.lookup "match" = some (.bool false) ∧
      c.lookup "details" =
        some (.str (create_diff_message (pyStrip "a") (pyStrip "b"))) ∧
      create_diff_message (pyStrip "a") (pyStrip "b") =
        "âŒ Output does not match!\n\n" ++
        "Expected:\n" ++ preview200 (pyStrip "b") ++ "\n\n" ++
        "Got:\n" ++ preview200 (pyStrip "a") ++ "\n\n" ++
        "Similarity: " ++
          fmt1 (ratio_of (pyStrip "a") (pyStrip "b") * 100) ++ "%" ∧
      preview200 (pyStrip "b") =
        (if 200 < (pyStrip "b").length
         then String.mk ((pyStrip "b").toList.take 200) ++ "..."
         else pyStrip "b") ∧
      preview200 (pyStrip "a") =
        (if 200 < (pyStrip "a").length
         then String.mk ((pyStrip "a").toList.take 200) ++ "..."
         else pyStrip "a") ∧
      ((pyStrip "b").toList.take 200).length ≤ 200 ∧
      ((pyStrip "a").toList.take 200).length ≤ 200) :=
  ⟨by decide, c6_exact_mismatch_details "a" "b" (by decide)⟩

/-- C3: when the code contains a deny-listed token as a case-insensitive
substring, `execute` fails with a message naming a blocked token that occurs
in the code, the output and errors fields are both empty, and the code is
never executed — expressed by the result being identical under every pair of
`exec` oracles. -/
theorem c3_denylist_blocks (timeout : Nat) (oracle oracle' : ExecOracle)
    (code : String)
    (h : ∃ b ∈ blocked_modules, pyContainsSub (pyLower code) b = true) :
    (executePure timeout oracle (.str code)).success = false ∧
    (executePure timeout oracle (.str code)).output = "" ∧
    (executePure timeout oracle (.str code)).errors = "" ∧
    (∃ b ∈ blocked_modules, pyContainsSub (pyLower code) b = true ∧
      (executePure timeout oracle (.str code)).message =
        "Blocked operation detected: " ++ b) ∧
    executePure timeout oracle (.str code) =
      executePure timeout oracle' (.str code) := by
  obtain ⟨b0, hmem0, hsub0⟩ := h
  have hnonempty : ∀ x ∈ blocked_modules, x.toList.isEmpty = false := by decide
  have hne : code.isEmpty = false := by
    cases hb : code.isEmpty with
    | false => rfl
    | true =>
      exfalso
      have hcode : code = "" := (String.isEmpty_iff code).mp hb
      subst hcode
      have hred : pyContainsSub (pyLower "") b0 = b0.toList.isEmpty := rfl
      rw [hred, hnonempty b0 hmem0] at hsub0
      exact Bool.false_ne_true hsub0
  cases hf : blocked_modules.find? (fun b => pyContainsSub (pyLower code) b) with
  | none =>
    exfalso
    exact (List.find?_eq_none.mp hf b0 hmem0) hsub0
  | some bf =>
    have hexec : ∀ (or2 : ExecOracle), executePure timeout or2 (.str code) =
        ⟨"", "", false, "Blocked operation detected: " ++ bf⟩ := by
      intro or2
      simp only [executePure, SafeCodeExecutor.execute, hne, hf]
      rfl
    refine ⟨?_, ?_, ?_, ⟨bf, List.mem_of_find?_eq_some hf,
      List.find?_some hf, ?_⟩, ?_⟩
    · rw [hexec oracle]
    · rw [hexec oracle]
    · rw [hexec oracle]
    · rw [hexec oracle]
    · rw [hexec oracle, hexec oracle']

/-- C3 witness: the code `import os` contains the blocked token `os`; its
execution is rejected identically under two different oracles. -/
theorem c3_witness :
    (∃ b ∈ blocked_modules, pyContainsSub (pyLower "import os") b = true) ∧
    (executePure 5 okOracle (.str "import os")).success = false ∧
    (executePure 5 okOracle (.str "import os")).output = "" ∧
    (executePure 5 okOracle (.str "import os")).errors = "" ∧
    (∃ b ∈ blocked_modules, pyContainsSub (pyLower "import os") b = true ∧
      (executePure 5 okOracle (.str "import os")).message =
        "Blocked operation detected: " ++ b) ∧
    executePure 5 okOracle (.str "import os") =
      executePure 5 okOracle2 (.str "import os") :=
  ⟨⟨"os", by decide, by decide⟩,
    c3_denylist_blocks 5 okOracle okOracle2 "import os"
      ⟨"os", by decide, by decide⟩⟩

/-- C2 counterexample: the input `[1, 2]` parses as a JSON array, so
`data.get` raises `AttributeError`, the `except Exception` handler fires,
and the returned map is the two-key error record — it contains neither
`code` nor `execution_success` (nor the other contracted keys). -/
theorem c2_counterexample :
    execute_and_compare okOracle "[1, 2]" =
      .dict [("success", .bool false),
             ("error", .str "Tool error: 'list' object has no attribute 'get'")] ∧
    (execute_and_compare okOracle "[1, 2]").hasKey "code" = false ∧
    (execute_and_compare okOracle "[1, 2]").hasKey "execution_success" = false ∧
    (execute_and_compare okOracle "[1, 2]").hasKey "output" = false ∧
    (execute_and_compare okOracle "[1, 2]").hasKey "errors" = false ∧
    (execute_and_compare okOracle "[1, 2]").hasKey "message" = false :=
  ⟨rfl, rfl, rfl, rfl, rfl, rfl⟩

/-- C2 (amended): for every input string the returned map either contains at
minimum the keys `code`, `execution_success`, `output`, `errors` and
`message`, or is the two-key `{"success": False, "error": "Tool error: ..."}`
record produced by the facade's `except Exception` handler (reached when the
input parses to a non-object JSON value, or to an object whose
`expected_output` is present, non-null and non-string while execution
succeeded). -/
theorem c2_result_keys_or_error_record (oracle : ExecOracle) (s : String) :
    ((execute_and_compare oracle s).hasKey "code" = true ∧
     (execute_and_compare oracle s).hasKey "execution_success" = true ∧
     (execute_and_compare oracle s).hasKey "output" = true ∧
     (execute_and_compare oracle s).hasKey "errors" = true ∧
     (execute_and_compare oracle s).hasKey "message" = true) ∨
    (∃ e, execute_and_compare oracle s =
      .dict [("success", .bool false),
             ("error", .str ("Tool error: " ++ e))]) := by
  unfold execute_and_compare
  cases hj : jsonLoads s with
  | none => left; exact ⟨rfl, rfl, rfl, rfl, rfl⟩
  | some data =>
    cases data with
    | dict fields =>
      dsimp only
      simp only [execute_structured]
      cases hlen : pyLen (pyGet fields "code" (PyObj.str "")) with
      | none => right; exact ⟨_, rfl⟩
      | some n =>
      by_cases hcond : ¬ (pyGet fields "expected_output" PyObj.none).isNone = true ∧
          (executePure 5 oracle (pyGet fields "code" (PyObj.str ""))).success = true
      · rw [if_pos hcond]
        cases hexp : pyGet fields "expected_output" PyObj.none with
        | str es =>
          obtain ⟨m, sim, det, hc⟩ := compare_outputs_str_ok
            (executePure 5 oracle (pyGet fields "code" (.str ""))).output es
            (pyGet fields "compare_mode" (.str "exact"))
          rw [hc]
          left
          exact ⟨rfl, rfl, rfl, rfl, rfl⟩
        | none =>
          rw [hexp] at hcond
          exact absurd rfl hcond.1
        | bool b => right; exact ⟨_, rfl⟩
        | int n => right; exact ⟨_, rfl⟩
        | float q => right; exact ⟨_, rfl⟩
        | list xs => right; exact ⟨_, rfl⟩
        | dict fs => right; exact ⟨_, rfl⟩
      · rw [if_neg hcond]
        left
        exact ⟨rfl, rfl, rfl, rfl, rfl⟩
    | none => right; exact ⟨_, rfl⟩
    | bool b => right; exact ⟨_, rfl⟩
    | int n => right; exact ⟨_, rfl⟩
    | float q => right; exact ⟨_, rfl⟩
    | str t => right; exact ⟨_, rfl⟩
    | list xs => right; exact ⟨_, rfl⟩

/-- C7 counterexample: for the request `{"code": "print(1)",
"expected_output": 5}`, under the oracle recording the real behaviour of
`exec("print(1)")` in the restricted environment (prints `1`, completes
cleanly), an expected output is supplied (non-null) and execution succeeds,
yet the returned record has no non-null `comparison` field at all:
`expected.strip()` raises `AttributeError`, the exception handler fires, and
the result is the two-key error record. -/
theorem c7_counterexample :
    jsonLoads "\x7b\"code\": \"print(1)\", \"expected_output\": 5\x7d" =
      some (.dict [("code", .str "print(1)"), ("expected_output", .int 5)]) ∧
    (PyObj.int 5).isNone = false ∧
    (executePure 5 printOneOracle (.str "print(1)")).success = true ∧
    (executePure 5 printOneOracle (.str "print(1)")).output = "1\n" ∧
    (execute_and_compare printOneOracle
      "\x7b\"code\": \"print(1)\", \"expected_output\": 5\x7d").lookup
        "comparison" = Option.none ∧
    execute_and_compare printOneOracle
      "\x7b\"code\": \"print(1)\", \"expected_output\": 5\x7d" =
      .dict [("success", .bool false),
             ("error", .str "Tool error: 'int' object has no attribute 'strip'")] :=
  ⟨rfl, rfl, rfl, rfl, rfl, rfl⟩

/-- C7 (amended): for a request parsing to a JSON object whose `code` value
is unsized (null, boolean, number), `len(code)` in the progress message
raises before execution, and the facade returns the two-key error record
with no `comparison` field.  For a sized `code` value, the `comparison`
field of the returned result is non-null iff an expected output is supplied
(present and non-null), execution succeeded, and the expected output is a
string; when no expected output is supplied or execution fails, `comparison`
is null (the comparator is not invoked on that path); when a non-string
expected output is supplied and execution succeeds, the facade instead
returns the exception-handler record, which has no `comparison` field. -/
theorem c7_comparison_presence (oracle : ExecOracle) (s : String)
    (fields : List (String × PyObj))
    (hparse : jsonLoads s = some (.dict fields)) :
    (pyLen (pyGet fields "code" (.str "")) = Option.none →
      (execute_and_compare oracle s).lookup "comparison" = Option.none ∧
      execute_and_compare oracle s =
        .dict [("success", .bool false),
               ("error", .str ("Tool error: object of type '" ++
                 pyTypeName (pyGet fields "code" (.str "")) ++
                 "' has no len()"))]) ∧
    (∀ n, pyLen (pyGet fields "code" (.str "")) = some n →
      (((pyGet fields "expected_output" PyObj.none).isNone = true ∨
          (executePure 5 oracle (pyGet fields "code" (.str ""))).success = false →
        (execute_and_compare oracle s).lookup "comparison" = some PyObj.none) ∧
      (∀ es, pyGet fields "expected_output" PyObj.none = .str es →
        (executePure 5 oracle (pyGet fields "code" (.str ""))).success = true →
        ∃ c, (execute_and_compare oracle s).lookup "comparison" = some c ∧
          c.isNone = false) ∧
      ((pyGet fields "expected_output" PyObj.none).isNone = false →
        (∀ es, pyGet fields "expected_output" PyObj.none ≠ .str es) →
        (executePure 5 oracle (pyGet fields "code" (.str ""))).success = true →
        (execute_and_compare oracle s).lookup "comparison" = Option.none))) := by
  unfold execute_and_compare
  rw [hparse]
  dsimp only
  simp only [execute_structured]
  constructor
  · intro hlen
    rw [hlen]
    exact ⟨rfl, rfl⟩
  · intro n hlen
    rw [hlen]
    refine ⟨?_, ?_, ?_⟩
    · intro hdisj
      rw [if_neg]
      · rfl
      · intro hcond
        rcases hdisj with h1 | h1
        · exact hcond.1 h1
        · rw [h1] at hcond
          exact Bool.false_ne_true hcond.2
    · intro es hes hsucc
      rw [hes, hsucc]
      rw [if_pos ⟨fun hx => Bool.false_ne_true hx, rfl⟩]
      obtain ⟨m, sim, det, hc⟩ := compare_outputs_str_ok
        (executePure 5 oracle (pyGet fields "code" (.str ""))).output es
        (pyGet fields "compare_mode" (.str "exact"))
      rw [hc]
      exact ⟨mkComparisonDict (pyGet fields "compare_mode" (.str "exact")) m sim det,
        rfl, rfl⟩
    · intro hnn hnostr hsucc
      rw [hsucc]
      rw [if_pos ⟨fun hx => by rw [hnn] at hx; exact Bool.false_ne_true hx, rfl⟩]
      cases hexp : pyGet fields "expected_output" PyObj.none with
      | none => rw [hexp] at hnn; exact absurd hnn (by decide)
      | str es => exact absurd hexp (hnostr es)
      | bool b => rfl
      | int n => rfl
      | float q => rfl
      | list xs => rfl
      | dict fs => rfl

/-- C7 witness: a well-formed request with string code and string expected
output, under the oracle recording the real behaviour of `exec("print(1)")`,
exercises the amended characterization. -/
theorem c7_witness :
    jsonLoads "\x7b\"code\": \"print(1)\", \"expected_output\": \"out\"\x7d" =
      some (.dict [("code", .str "print(1)"),
                   ("expected_output", .str "out")]) ∧
    (pyLen (pyGet [("code", PyObj.str "print(1)"),
          ("expected_output", PyObj.str "out")] "code" (.str "")) =
        Option.none →
      (execute_and_compare printOneOracle
        "\x7b\"code\": \"print(1)\", \"expected_output\": \"out\"\x7d").lookup
          "comparison" = Option.none ∧
      execute_and_compare printOneOracle
        "\x7b\"code\": \"print(1)\", \"expected_output\": \"out\"\x7d" =
        .dict [("success", .bool false),
               ("error", .str ("Tool error: object of type '" ++
                 pyTypeName (pyGet [("code", PyObj.str "print(1)"),
                   ("expected_output", PyObj.str "out")] "code" (.str "")) ++
                 "' has no len()"))]) ∧
    (∀ n, pyLen (pyGet [("code", PyObj.str "print(1)"),
          ("expected_output", PyObj.str "out")] "code" (.str "")) = some n →
      (((pyGet [("code", PyObj.str "print(1)"),
            ("expected_output", PyObj.str "out")]
            "expected_output" PyObj.none).isNone = true ∨
          (executePure 5 printOneOracle
            (pyGet [("code", PyObj.str "print(1)"),
              ("expected_output", PyObj.str "out")]
              "code" (.str ""))).success = false →
        (execute_and_compare printOneOracle
          "\x7b\"code\": \"print(1)\", \"expected_output\": \"out\"\x7d").lookup
            "comparison" = some PyObj.none) ∧
      (∀ es, pyGet [("code", PyObj.str "print(1)"),
          ("expected_output", PyObj.str "out")]
          "expected_output" PyObj.none = .str es →
        (executePure 5 printOneOracle
          (pyGet [("code", PyObj.str "print(1)"),
            ("expected_output", PyObj.str "out")]
            "code" (.str ""))).success = true →
        ∃ c, (execute_and_compare printOneOracle
          "\x7b\"code\": \"print(1)\", \"expected_output\": \"out\"\x7d").lookup
            "comparison" = some c ∧ c.isNone = false) ∧
      ((pyGet [("code", PyObj.str "print(1)"),
          ("expected_output", PyObj.str "out")]
          "expected_output" PyObj.none).isNone = false →
        (∀ es, pyGet [("code", PyObj.str "print(1)"),
          ("expected_output", PyObj.str "out")]
          "expected_output" PyObj.none ≠ .str es) →
        (executePure 5 printOneOracle
          (pyGet [("code", PyObj.str "print(1)"),
            ("expected_output", PyObj.str "out")]
            "code" (.str ""))).success = true →
        (execute_and_compare printOneOracle
          "\x7b\"code\": \"print(1)\", \"expected_output\": \"out\"\x7d").lookup
            "comparison" = Option.none))) :=
  ⟨rfl, c7_comparison_presence printOneOracle
    "\x7b\"code\": \"print(1)\", \"expected_output\": \"out\"\x7d"
    [("code", PyObj.str "print(1)"), ("expected_output", PyObj.str "out")] rfl⟩

/-- C8 counterexample: the environment is not restricted to the operations
the spec enumerates — `bin` is in the safe-builtins table but not among the
spec's enumerated operations (likewise `bool`, `chr`, `format`, `hex`,
`isinstance`, `ord`, `type`). -/
theorem c8_counterexample :
    safe_builtins.contains "bin" = true ∧
    spec_enumerated_builtins.contains "bin" = false := by
  exact ⟨rfl, rfl⟩

/-- C8 (amended): the restricted environment is a fixed identifier table
containing every operation the spec enumerates plus exactly eight further
pure helpers (`bin`, `bool`, `chr`, `format`, `hex`, `isinstance`, `ord`,
`type`), and it contains none of the builtins capable of I/O, reflection on
the execution environment, or loading external code (the permitted
`print`-equivalent apart). -/
theorem c8_environment_contents :
    (∀ x ∈ spec_enumerated_builtins, x ∈ safe_builtins) ∧
    (∀ x ∈ safe_builtins, x ∈ spec_enumerated_builtins ∨ x ∈ extra_builtins) ∧
    (∀ x ∈ extra_builtins, x ∈ safe_builtins ∧ x ∉ spec_enumerated_builtins) ∧
    (∀ x ∈ safe_builtins, x ∉ io_reflection_loading_builtins) := by
  decide

end CodeExec
